import Mathlib

/-!
Verification of the Grafana live-channel registry (`CentrifugeSrv` in
`public/app/features/live/live.ts`, here `src/unnamed/part_000`) and the
channel data model (`packages/grafana-data/src/types/live.ts`).

The TypeScript service is embedded as a small-step event semantics:

* JavaScript object identity is modelled by an allocation heap
  `heap : List (Nat × Channel)` indexed by tokens; `openMap` is the
  registry `open : Map<string, CentrifugeLiveChannel>` storing tokens.
* The single-threaded event loop is modelled by a `step` function over
  events: a `getChannel` call, the resolution of a pending
  `scope.getChannelSupport` promise (`resolveInit`), the transport
  `connect` / `disconnect` callbacks, and a user calling
  `channel.disconnect()`.
* The `connectionBlocker` promise is the pair of flags
  `blockerResolved` (the promise has resolved; it resolves on the first
  transport connect and stays resolved) and the `tasks` entries in stage
  `waitingBlocker` (initializations suspended on the blocker).
* Async exceptions (rejected promises) are explicit `InitResult.err`
  values; the `.catch` attached in `getChannel` is `catchInit`.

External collaborators (the scope resolvers of `./scopes`, the
centrifuge transport) are an explicit environment `Env`.  Code of the
repository that is not part of the given sources (`./channel`'s
`CentrifugeLiveChannel` and `getErrorChannel`) is modelled from the
spec, as marked on each definition.
-/

namespace GrafanaLive

/-! ### Association-list primitives (model of `Map` and of the object heap) -/

/-- Delete every binding of key `k` (model of `Map.delete`). -/
def adel [BEq α] (k : α) (l : List (α × β)) : List (α × β) :=
  l.filter (fun p => p.1 != k)

/-- Bind key `k` to `v`, replacing any previous binding (model of `Map.set`
and of assigning a field of a heap object). -/
def aset [BEq α] (k : α) (v : β) (l : List (α × β)) : List (α × β) :=
  (k, v) :: adel k l

/-! ### Data model, from `packages/grafana-data/src/types/live.ts` -/

/-- The enum `LiveChannelScope`: `DataSource = 'ds'`, `Plugin = 'plugin'`,
`Grafana = 'grafana'`. -/
inductive LiveChannelScope
  | DataSource
  | Plugin
  | Grafana
deriving DecidableEq, Repr

/-- The string value of each `LiveChannelScope` member. -/
def LiveChannelScope.str : LiveChannelScope → String
  | .DataSource => "ds"
  | .Plugin => "plugin"
  | .Grafana => "grafana"

/-- The enum `LiveChannelConnectionState`. -/
inductive LiveChannelConnectionState
  | Pending
  | Connected
  | Disconnected
  | Shutdown
  | Invalid
deriving DecidableEq, Repr

/-- The interface `LiveChannelConfig`.  The optional predicate
`canPublish?: () => boolean` is modelled by the value it returns at
initialization time (`none` when the member is absent); `variables` and
`processMessage` carry payload-level data not touched by this layer and
are omitted. -/
structure LiveChannelConfig where
  path : String
  description : Option String
  hasPresense : Option Bool
  canPublish : Option Bool
deriving DecidableEq, Repr

/-- The interface `LiveChannelSupport` as consumed by `initChannel`. -/
structure ChannelSupport where
  getChannelConfig : String → Option LiveChannelConfig
  getSupportedPaths : List LiveChannelConfig

/-- A `CentrifugeLiveChannel` object.  Optional members (`publish`, the
transport `subscription`) are modelled by their presence; the
`shutdownCallback` installed by `getChannel` (which deletes the id from
the registry) is modelled by the flag `hasShutdownCallback`; the source field `namespace` is a Lean
keyword and is spelled `nspace` here. -/
structure Channel where
  id : String
  scope : String
  nspace : String
  path : String
  currentState : LiveChannelConnectionState
  error : Option String
  config : Option LiveChannelConfig
  publish : Bool
  subscription : Bool
  hasShutdownCallback : Bool
deriving DecidableEq, Repr

/-- Modelled from the spec: a fresh `CentrifugeLiveChannel` starts in
state Pending before any network activity, with no config, no publish
operation and no transport subscription attached. -/
def newChannel (id scopeId ns path : String) : Channel :=
  { id := id
    scope := scopeId
    nspace := ns
    path := path
    currentState := .Pending
    error := none
    config := none
    publish := false
    subscription := false
    hasShutdownCallback := true }

/-- Modelled from the spec: `getErrorChannel` (from `./channel`, absent
from the sources) returns a shutdown channel with the error indicated in
its status, per the doc comment of `getChannel`: "If the scope,
namespace, or path is invalid, a shutdown channel will be returned with
an error state indicated in its status".  It is returned directly and is
never registered, so it has no shutdown callback. -/
def getErrorChannel (msg id scopeId ns path : String) : Channel :=
  { id := id
    scope := scopeId
    nspace := ns
    path := path
    currentState := .Shutdown
    error := some msg
    config := none
    publish := false
    subscription := false
    hasShutdownCallback := false }

/-- The runtime lookup `this.scopes[scopeId]` of the record built in the
constructor: only the three enum values are keys. -/
def scopeOf (s : String) : Option LiveChannelScope :=
  if s = "ds" then some .DataSource
  else if s = "plugin" then some .Plugin
  else if s = "grafana" then some .Grafana
  else none

/-- External collaborators: the per-scope resolvers (`GrafanaLiveScope`
objects from `./scopes`) and the centrifuge transport.
`getChannelSupport` is async and may reject (`Except.error`) or resolve
with no support (`Except.ok none`); `subscribeResult` tells whether
`centrifuge.subscribe` succeeds for a given channel id. -/
structure Env where
  getChannelSupport : String → String → Except String (Option ChannelSupport)
  subscribeResult : String → Except String Unit

/-- A pending continuation of `initChannel`: either suspended at
`await scope.getChannelSupport(...)`, or suspended at
`await this.connectionBlocker` with the resolved config in its closure. -/
inductive TaskStage
  | resolving
  | waitingBlocker (config : LiveChannelConfig)
deriving DecidableEq, Repr

/-- Whether a task is suspended on the connection blocker. -/
def TaskStage.isWaiting : TaskStage → Bool
  | .resolving => false
  | .waitingBlocker _ => true

/-- The state of a `CentrifugeSrv` instance: the allocation heap of
channel objects, the registry `open`, the transport connection flag, the
`connectionBlocker` resolution flag, the `connectionState`
BehaviorSubject (current value and emission history), and the pending
initialization continuations. -/
structure SrvState where
  nextTok : Nat
  heap : List (Nat × Channel)
  openMap : List (String × Nat)
  connected : Bool
  blockerResolved : Bool
  connState : Bool
  connLog : List Bool
  tasks : List (Nat × TaskStage)
deriving DecidableEq, Repr

/-- The state after the constructor ran: empty registry, no channels, no
pending work; per the constructor, `connectionState` starts at
`centrifuge.isConnected()` and `connectionBlocker` resolves immediately
when already connected. -/
def initState (c0 : Bool) : SrvState :=
  { nextTok := 0
    heap := []
    openMap := []
    connected := c0
    blockerResolved := c0
    connState := c0
    connLog := []
    tasks := [] }

/-! ### Operations of `CentrifugeSrv` (from `src/unnamed/part_000`) -/

/-- The id construction of `getChannel`:
the template literal `${scopeId}/${namespace}/${path}`. -/
def channelId (scopeId ns path : String) : String :=
  scopeId ++ "/" ++ ns ++ "/" ++ path

/-- The result of running (a stage of) the async `initChannel` body:
`ok` is normal completion of the stage, `err e st` is a rejected promise
carrying the exception `e`; `st` is the state as mutated so far (object
mutations performed before the throw are kept, as in JavaScript). -/
inductive InitResult
  | ok (st : SrvState)
  | err (e : String) (st : SrvState)

/-- The tail of `initChannel` after the connection blocker:
`if (config.canPublish && config.canPublish()) channel.publish = ...;
channel.subscription = this.centrifuge.subscribe(channel.id, events)`. -/
def finishInit (env : Env) (st : SrvState) (tok : Nat) (ch : Channel)
    (config : LiveChannelConfig) : InitResult :=
  let ch1 := if config.canPublish = some true then { ch with publish := true } else ch
  let st1 := { st with heap := aset tok ch1 st.heap }
  match env.subscribeResult ch.id with
  | .error e => .err e st1
  | .ok _ => .ok { st1 with heap := aset tok { ch1 with subscription := true } st1.heap }

/-- The rejection handler attached in `getChannel`:
`.catch(err => { channel?.shutdownWithError(err); this.open.delete(id); })`.
`shutdownWithError` (from `./channel`, absent from the sources) is
modelled from the spec: it forces the channel to Shutdown with the error
recorded in its status. -/
def catchInit (st : SrvState) (tok : Nat) (id : String) (e : String) : SrvState :=
  let heap1 :=
    match List.lookup tok st.heap with
    | some ch => aset tok { ch with currentState := .Shutdown, error := some e } st.heap
    | none => st.heap
  { st with heap := heap1, openMap := adel id st.openMap }

/-- Run the post-blocker tail and apply the `.catch` handler on
rejection (used when the blocker continuation resumes). -/
def runFinish (env : Env) (st : SrvState) (tok : Nat) (ch : Channel)
    (config : LiveChannelConfig) : SrvState :=
  match finishInit env st tok ch config with
  | .ok st' => st'
  | .err e st' => catchInit st' tok ch.id e

/-- The tail of the async `initChannel` body after the config lookup
`support.getChannelConfig(channel.path)` (factored on the lookup's
outcome): throw when the config is absent, `channel.initalize(config)`
(modelled from the spec: records the resolved config on the channel),
then either suspend on the `connectionBlocker` when the transport is not
connected and the blocker is still pending, or run the post-blocker tail
immediately (an already-resolved blocker awaits without suspending). -/
def initChannelCfg (env : Env) (st : SrvState) (tok : Nat) (ch : Channel) :
    Option LiveChannelConfig → InitResult
  | none => .err ("unknown path: " ++ ch.path) st
  | some config =>
    if !st.connected && !st.blockerResolved then
      .ok { st with
        heap := aset tok { ch with config := some config } st.heap
        tasks := st.tasks ++ [(tok, .waitingBlocker config)] }
    else
      finishInit env { st with heap := aset tok { ch with config := some config } st.heap }
        tok { ch with config := some config } config

/-- The async `initChannel` body from the resolution of
`await scope.getChannelSupport(channel.namespace)` onwards (factored on
the resolution's outcome): a rejected resolution rejects the whole body,
absent support throws, and otherwise the config is resolved and the body
continues. -/
def initChannelSupport (env : Env) (st : SrvState) (tok : Nat) (ch : Channel) :
    Except String (Option ChannelSupport) → InitResult
  | .error e => .err e st
  | .ok none => .err (ch.nspace ++ "does not support streaming") st
  | .ok (some support) => initChannelCfg env st tok ch (support.getChannelConfig ch.path)

/-- The async `initChannel` body from its first suspension point onwards,
driven by the outcome of `scope.getChannelSupport`. -/
def initChannel (env : Env) (st : SrvState) (tok : Nat) (ch : Channel) : InitResult :=
  initChannelSupport env st tok ch (env.getChannelSupport ch.scope ch.nspace)

/-- The event-loop step for the settlement of a pending
`getChannelSupport` promise: run the rest of `initChannel` for that
channel and apply the `.catch` handler on rejection. -/
def stepResolve (env : Env) (st : SrvState) (tok : Nat) : SrvState :=
  match List.lookup tok st.tasks with
  | some .resolving =>
    let st0 := { st with tasks := adel tok st.tasks }
    match List.lookup tok st0.heap with
    | some ch =>
      match initChannel env st0 tok ch with
      | .ok st' => st'
      | .err e st' => catchInit st' tok ch.id e
    | none => st0
  | _ => st

/-- Resume the continuations suspended on the connection blocker (the
promise resolution scheduled by `connectListener`); continuations not
suspended on the blocker stay pending.  Each resumed continuation still
has the `.catch` of `getChannel` attached. -/
def flushLoop (env : Env) : List (Nat × TaskStage) → SrvState → SrvState
  | [], st => st
  | (tok, .resolving) :: rest, st =>
    flushLoop env rest { st with tasks := st.tasks ++ [(tok, .resolving)] }
  | (tok, .waitingBlocker config) :: rest, st =>
    match List.lookup tok st.heap with
    | some ch => flushLoop env rest (runFinish env st tok ch config)
    | none => flushLoop env rest st

/-- The transport `connect` callback: `connectListener` resolves the
`connectionBlocker` (and removes itself, so the blocker stays resolved),
`onConnect` pushes `true` into the `connectionState` subject, and the
continuations awaiting the blocker then resume. -/
def stepConnect (env : Env) (st : SrvState) : SrvState :=
  let st1 := { st with
    connected := true
    blockerResolved := true
    connState := true
    connLog := st.connLog ++ [true]
    tasks := [] }
  flushLoop env st.tasks st1

/-- The transport `disconnect` callback, `onDisconnect`: pushes `false`
into the `connectionState` subject. -/
def stepDisconnect (st : SrvState) : SrvState :=
  { st with connected := false, connState := false, connLog := st.connLog ++ [false] }

/-- Modelled from the spec: `channel.disconnect()` forces the transition
to Shutdown regardless of current state, releases the transport
subscription, and runs the `shutdownCallback` installed by `getChannel`,
which deletes the channel's id from the registry. -/
def stepDisconnectChannel (st : SrvState) (tok : Nat) : SrvState :=
  match List.lookup tok st.heap with
  | none => st
  | some ch =>
    let st1 := { st with
      heap := aset tok { ch with currentState := .Shutdown, subscription := false } st.heap }
    if ch.hasShutdownCallback then { st1 with openMap := adel ch.id st1.openMap } else st1

/-- The synchronous body of `getChannel`.  The `Except` layer records
every place the source could throw to its caller; all asynchronous work
is deferred to a pending task whose rejection is consumed by the
attached `.catch`, so no branch below constructs an error.  Returns the
token of the returned `LiveChannel` and the successor state. -/
def getChannelE (st : SrvState) (scopeId ns path : String) :
    Except String (Nat × SrvState) :=
  let id := channelId scopeId ns path
  match List.lookup id st.openMap with
  | some tok => .ok (tok, st)
  | none =>
    match scopeOf scopeId with
    | none =>
      .ok (st.nextTok,
        { st with
          nextTok := st.nextTok + 1
          heap := aset st.nextTok (getErrorChannel "invalid scope" id scopeId ns path) st.heap })
    | some _ =>
      let ch := newChannel id scopeId ns path
      .ok (st.nextTok,
        { st with
          nextTok := st.nextTok + 1
          heap := aset st.nextTok ch st.heap
          openMap := aset id st.nextTok st.openMap
          tasks := st.tasks ++ [(st.nextTok, .resolving)] })

/-- The events driving the single-threaded event loop. -/
inductive Event
  | getChannel (scopeId ns path : String)
  | resolveInit (tok : Nat)
  | connect
  | disconnect
  | disconnectChannel (tok : Nat)
deriving DecidableEq, Repr

/-- One event-loop step. -/
def step (env : Env) (st : SrvState) : Event → SrvState
  | .getChannel s n p =>
    match getChannelE st s n p with
    | .ok (_, st') => st'
    | .error _ => st
  | .resolveInit tok => stepResolve env st tok
  | .connect => stepConnect env st
  | .disconnect => stepDisconnect st
  | .disconnectChannel tok => stepDisconnectChannel st tok

/-- Run a sequence of events. -/
def run (env : Env) (st : SrvState) : List Event → SrvState
  | [] => st
  | e :: es => run env (step env st e) es

/-- The current value published by `getConnectionState()`'s observable
(the `connectionState` BehaviorSubject). -/
def getConnectionState (st : SrvState) : Bool :=
  st.connState

/-- The exported `isConnected()`. -/
def isConnected (st : SrvState) : Bool :=
  st.connected

/-! ### Channel Address Model -/

/-- Split a character list at every `'/'` (an empty input yields one
empty segment, as `String.split` does). -/
def splitOnSlash : List Char → List (List Char)
  | [] => [[]]
  | c :: rest =>
    let r := splitOnSlash rest
    if c = '/' then [] :: r
    else (c :: r.headD []) :: r.tail

/-- Modelled from the spec: the Channel Address Model's parse direction
(absent from the sources, which only format ids in `getChannel`): given
an id, split it at the separator into the `(scope, namespace, path)`
triple, failing when the shape is wrong or a segment is empty. -/
def parseChannelId (id : String) : Option (String × String × String) :=
  match splitOnSlash id.data with
  | [s, n, p] =>
    if s.isEmpty || n.isEmpty || p.isEmpty then none
    else some (⟨s⟩, ⟨n⟩, ⟨p⟩)
  | _ => none

/-! ### Lemmas about the association-list primitives -/

theorem lookup_adel_self [BEq α] [LawfulBEq α] (k : α) (l : List (α × β)) :
    List.lookup k (adel k l) = none := by
  simp only [adel]
  induction l with
  | nil => rfl
  | cons p l ih =>
    by_cases h : p.1 = k
    · have hf : (p.1 != k) = false := by simp [h]
      simp only [List.filter_cons, hf, Bool.false_eq_true, if_false]
      exact ih
    · have hf : (p.1 != k) = true := by simp [h]
      have hk : (k == p.1) = false := beq_eq_false_iff_ne.2 (Ne.symm h)
      simp only [List.filter_cons, hf, if_true, List.lookup, hk]
      exact ih

theorem lookup_adel_ne [BEq α] [LawfulBEq α] {k k' : α} (l : List (α × β)) (h : k' ≠ k) :
    List.lookup k' (adel k l) = List.lookup k' l := by
  simp only [adel]
  induction l with
  | nil => rfl
  | cons p l ih =>
    by_cases hp : p.1 = k
    · have hf : (p.1 != k) = false := by simp [hp]
      have hk : (k' == p.1) = false := beq_eq_false_iff_ne.2 (by rw [hp]; exact h)
      simp only [List.filter_cons, hf, Bool.false_eq_true, if_false, List.lookup, hk]
      exact ih
    · have hf : (p.1 != k) = true := by simp [hp]
      simp only [List.filter_cons, hf, if_true, List.lookup]
      cases hb : k' == p.1 with
      | true => rfl
      | false => exact ih

theorem lookup_aset_self [BEq α] [LawfulBEq α] (k : α) (v : β) (l : List (α × β)) :
    List.lookup k (aset k v l) = some v := by
  simp [aset, List.lookup]

theorem lookup_aset_ne [BEq α] [LawfulBEq α] {k k' : α} (v : β) (l : List (α × β))
    (h : k' ≠ k) : List.lookup k' (aset k v l) = List.lookup k' l := by
  have : (k' == k) = false := beq_eq_false_iff_ne.2 h
  simp [aset, List.lookup, this, lookup_adel_ne l h]

theorem mem_adel [BEq α] [LawfulBEq α] {p : α × β} {k : α} {l : List (α × β)}
    (h : p ∈ adel k l) : p ∈ l ∧ p.1 ≠ k := by
  have := List.mem_filter.1 h
  exact ⟨this.1, by simpa [bne] using this.2⟩

theorem mem_aset [BEq α] [LawfulBEq α] {p : α × β} {k : α} {v : β} {l : List (α × β)}
    (h : p ∈ aset k v l) : p = (k, v) ∨ (p ∈ l ∧ p.1 ≠ k) := by
  rcases List.mem_cons.1 h with h | h
  · exact Or.inl h
  · exact Or.inr (mem_adel h)

theorem lookup_mem [BEq α] [LawfulBEq α] {k : α} {v : β} {l : List (α × β)}
    (h : List.lookup k l = some v) : (k, v) ∈ l := by
  induction l with
  | nil => simp [List.lookup] at h
  | cons p l ih =>
    by_cases hk : k = p.1
    · have : (k == p.1) = true := beq_iff_eq.2 hk
      simp only [List.lookup, this] at h
      cases p
      cases h
      simp_all
    · have : (k == p.1) = false := beq_eq_false_iff_ne.2 hk
      simp only [List.lookup, this] at h
      exact List.mem_cons_of_mem _ (ih h)

theorem adel_sublist [BEq α] (k : α) (l : List (α × β)) : (adel k l).Sublist l :=
  List.filter_sublist l

/-! ### Channel Address Model lemmas -/

theorem splitOnSlash_no_sep {xs : List Char} (h : '/' ∉ xs) : splitOnSlash xs = [xs] := by
  induction xs with
  | nil => rfl
  | cons c rest ih =>
    have hc : ¬(c = '/') := fun e => h (by simp [e])
    have hr : '/' ∉ rest := fun m => h (List.mem_cons_of_mem _ m)
    simp [splitOnSlash, hc, ih hr]

theorem splitOnSlash_append {xs : List Char} (ys : List Char) (h : '/' ∉ xs) :
    splitOnSlash (xs ++ '/' :: ys) = xs :: splitOnSlash ys := by
  induction xs with
  | nil => simp [splitOnSlash]
  | cons c rest ih =>
    have hc : ¬(c = '/') := fun e => h (by simp [e])
    have hr : '/' ∉ rest := fun m => h (List.mem_cons_of_mem _ m)
    simp [splitOnSlash, hc, ih hr]

/-! ### Frame lemmas: which parts of the state each operation leaves alone -/

/-- The connection-related components of the state (transport flag,
blocker flag, `connectionState` value and emission history) together
with the allocation counter. -/
def flagsOf (st : SrvState) : Bool × Bool × Bool × List Bool × Nat :=
  (st.connected, st.blockerResolved, st.connState, st.connLog, st.nextTok)

theorem flagsOf_catchInit (st : SrvState) (tok : Nat) (id e : String) :
    flagsOf (catchInit st tok id e) = flagsOf st := by
  cases h : List.lookup tok st.heap <;> simp [catchInit, h, flagsOf]

theorem tasks_catchInit (st : SrvState) (tok : Nat) (id e : String) :
    (catchInit st tok id e).tasks = st.tasks := by
  cases h : List.lookup tok st.heap <;> simp [catchInit, h]

theorem flagsOf_runFinish (env : Env) (st : SrvState) (tok : Nat) (ch : Channel)
    (config : LiveChannelConfig) : flagsOf (runFinish env st tok ch config) = flagsOf st := by
  cases h : env.subscribeResult ch.id <;>
    simp [runFinish, finishInit, h, flagsOf, flagsOf_catchInit, catchInit]

theorem tasks_runFinish (env : Env) (st : SrvState) (tok : Nat) (ch : Channel)
    (config : LiveChannelConfig) : (runFinish env st tok ch config).tasks = st.tasks := by
  cases h : env.subscribeResult ch.id <;>
    simp [runFinish, finishInit, h, tasks_catchInit]

theorem flagsOf_flushLoop (env : Env) (l : List (Nat × TaskStage)) (st : SrvState) :
    flagsOf (flushLoop env l st) = flagsOf st := by
  induction l generalizing st with
  | nil => rfl
  | cons p rest ih =>
    rcases p with ⟨tok, stage⟩
    cases stage with
    | resolving => simpa [flushLoop, flagsOf] using ih _
    | waitingBlocker config =>
      cases h : List.lookup tok st.heap with
      | none => simpa [flushLoop, h] using ih st
      | some ch =>
        simp only [flushLoop, h]
        rw [ih _, flagsOf_runFinish]

/-! ### The registry invariant -/

/-- The publish-capability contract of a channel object: the `publish`
member is only ever bound when the resolved config's `canPublish`
predicate returned true, and once the transport subscription is attached
(initialization completed), `publish` is bound exactly when the resolved
config's predicate returned true. -/
def C6prop (ch : Channel) : Prop :=
  (ch.publish = true → ∃ cfg, ch.config = some cfg ∧ cfg.canPublish = some true) ∧
  (ch.subscription = true →
    ∃ cfg, ch.config = some cfg ∧ (ch.publish = true ↔ cfg.canPublish = some true))

/-- Shape of a channel whose initialization is suspended at
`getChannelSupport`: nothing resolved or attached yet. -/
def chanResolving (ch : Channel) : Prop :=
  ch.config = none ∧ ch.publish = false ∧ ch.subscription = false

/-- Shape of a channel suspended on the connection blocker: config
recorded by `initalize`, nothing attached yet. -/
def chanWaiting (config : LiveChannelConfig) (ch : Channel) : Prop :=
  ch.config = some config ∧ ch.publish = false ∧ ch.subscription = false

/-- A pending task is consistent with the heap and the allocator. -/
def goodTask (n : Nat) (heap : List (Nat × Channel)) : Nat × TaskStage → Prop
  | (tok, .resolving) => tok < n ∧ ∀ ch, List.lookup tok heap = some ch → chanResolving ch
  | (tok, .waitingBlocker config) =>
    tok < n ∧ ∀ ch, List.lookup tok heap = some ch → chanWaiting config ch

/-- Pending tasks belong to pairwise-distinct channels. -/
def distinctKeys (l : List (Nat × TaskStage)) : Prop :=
  l.Pairwise (fun a b => a.1 ≠ b.1)

/-- The inductive invariant of the service state: allocated tokens are
below the allocation counter, pending tasks are pairwise for distinct
channels and consistent with the heap, every channel satisfies the
publish contract, no subscription is attached while the connection
blocker is unresolved, and the blocker is resolved whenever the
transport is connected. -/
structure Inv (st : SrvState) : Prop where
  hb : ∀ p ∈ st.heap, p.1 < st.nextTok
  tg : ∀ p ∈ st.tasks, goodTask st.nextTok st.heap p
  nd : distinctKeys st.tasks
  pb : ∀ tok ch, List.lookup tok st.heap = some ch → C6prop ch
  ns : st.blockerResolved = false →
    ∀ tok ch, List.lookup tok st.heap = some ch → ch.subscription = false
  cb : st.connected = true → st.blockerResolved = true

/-! ### Heap simulation lemmas for the initialization steps -/

theorem catchInit_shadow (st : SrvState) (tok : Nat) (id e : String) :
    ∀ tok' ch', List.lookup tok' (catchInit st tok id e).heap = some ch' →
      ∃ ch0, List.lookup tok' st.heap = some ch0 ∧ ch'.config = ch0.config ∧
        ch'.publish = ch0.publish ∧ ch'.subscription = ch0.subscription := by
  intro tok' ch' h
  cases hl : List.lookup tok st.heap with
  | none =>
    simp only [catchInit, hl] at h
    exact ⟨ch', h, rfl, rfl, rfl⟩
  | some ch0 =>
    simp only [catchInit, hl] at h
    by_cases he : tok' = tok
    · subst he
      rw [lookup_aset_self] at h
      cases h
      exact ⟨ch0, hl, rfl, rfl, rfl⟩
    · rw [lookup_aset_ne _ _ he] at h
      exact ⟨ch', h, rfl, rfl, rfl⟩

theorem catchInit_hb {n : Nat} (st : SrvState) (tok : Nat) (id e : String)
    (hhb : ∀ p ∈ st.heap, p.1 < n) : ∀ p ∈ (catchInit st tok id e).heap, p.1 < n := by
  intro p hp
  cases hl : List.lookup tok st.heap with
  | none =>
    simp only [catchInit, hl] at hp
    exact hhb p hp
  | some ch0 =>
    simp only [catchInit, hl] at hp
    rcases mem_aset hp with he | ⟨hm, _⟩
    · have : tok < n := hhb _ (lookup_mem hl)
      rw [he]
      exact this
    · exact hhb _ hm

theorem runFinish_lookup_ne (env : Env) (st : SrvState) (tok : Nat) (ch : Channel)
    (config : LiveChannelConfig) {tok' : Nat} (h : tok' ≠ tok) :
    List.lookup tok' (runFinish env st tok ch config).heap = List.lookup tok' st.heap := by
  cases hs : env.subscribeResult ch.id with
  | ok u => simp [runFinish, finishInit, hs, lookup_aset_ne _ _ h]
  | error e =>
    simp only [runFinish, finishInit]
    rw [hs]
    simp only [catchInit, lookup_aset_self]
    simp [lookup_aset_ne _ _ h]

theorem runFinish_hb {n : Nat} (env : Env) (st : SrvState) (tok : Nat) (ch : Channel)
    (config : LiveChannelConfig) (ht : tok < n) (hhb : ∀ p ∈ st.heap, p.1 < n) :
    ∀ p ∈ (runFinish env st tok ch config).heap, p.1 < n := by
  intro p hp
  cases hs : env.subscribeResult ch.id with
  | ok u =>
    simp only [runFinish, finishInit, hs] at hp
    rcases mem_aset hp with he | ⟨hm, _⟩
    · rw [he]; exact ht
    · rcases mem_aset hm with he2 | ⟨hm2, _⟩
      · rw [he2]; exact ht
      · exact hhb _ hm2
  | error e =>
    simp only [runFinish, finishInit, hs] at hp
    refine catchInit_hb _ _ _ _ ?_ p hp
    intro q hq
    rcases mem_aset hq with he | ⟨hm, _⟩
    · rw [he]; exact ht
    · exact hhb _ hm

theorem runFinish_pb (env : Env) (st : SrvState) (tok : Nat) (ch : Channel)
    (config : LiveChannelConfig) (hw : chanWaiting config ch)
    (hpb : ∀ tok' ch', List.lookup tok' st.heap = some ch' → C6prop ch') :
    ∀ tok' ch', List.lookup tok' (runFinish env st tok ch config).heap = some ch' →
      C6prop ch' := by
  intro tok' ch' hl
  by_cases he : tok' = tok
  · subst he
    rcases hw with ⟨hcfg, hpub, hsub⟩
    cases hs : env.subscribeResult ch.id with
    | ok u =>
      simp only [runFinish, finishInit, hs, lookup_aset_self] at hl
      cases hl
      by_cases hc : config.canPublish = some true <;>
        simp [C6prop, hc, hcfg, hpub]
    | error e =>
      simp only [runFinish, finishInit, hs] at hl
      rcases catchInit_shadow _ _ _ _ _ _ hl with ⟨ch0, hl0, hc1, hc2, hc3⟩
      rw [lookup_aset_self] at hl0
      cases hl0
      by_cases hc : config.canPublish = some true <;>
        constructor <;> simp_all [C6prop, chanWaiting]
  · rw [runFinish_lookup_ne _ _ _ _ _ he] at hl
    exact hpb _ _ hl

theorem flags_parts {a b : SrvState} (h : flagsOf a = flagsOf b) :
    a.connected = b.connected ∧ a.blockerResolved = b.blockerResolved ∧
    a.connState = b.connState ∧ a.connLog = b.connLog ∧ a.nextTok = b.nextTok :=
  ⟨congrArg (fun t => t.1) h, congrArg (fun t => t.2.1) h, congrArg (fun t => t.2.2.1) h,
    congrArg (fun t => t.2.2.2.1) h, congrArg (fun t => t.2.2.2.2) h⟩

theorem goodTask_congr {n : Nat} {heap heap' : List (Nat × Channel)}
    {p : Nat × TaskStage} (h : List.lookup p.1 heap' = List.lookup p.1 heap) :
    goodTask n heap p → goodTask n heap' p := by
  rcases p with ⟨tok, stage⟩
  cases stage with
  | resolving =>
    intro hg
    exact ⟨hg.1, fun ch hch => hg.2 ch (h ▸ hch)⟩
  | waitingBlocker config =>
    intro hg
    exact ⟨hg.1, fun ch hch => hg.2 ch (h ▸ hch)⟩

theorem tasks_flushLoop (env : Env) (l : List (Nat × TaskStage)) (st : SrvState) :
    (flushLoop env l st).tasks = st.tasks ++ l.filter (fun p => !p.2.isWaiting) := by
  induction l generalizing st with
  | nil => simp [flushLoop]
  | cons p rest ih =>
    rcases p with ⟨tok, stage⟩
    cases stage with
    | resolving =>
      simp only [flushLoop, ih, List.filter_cons, TaskStage.isWaiting]
      simp [List.append_assoc]
    | waitingBlocker config =>
      cases h : List.lookup tok st.heap with
      | none => simp [flushLoop, h, ih, List.filter_cons, TaskStage.isWaiting]
      | some ch =>
        simp only [flushLoop, h, ih, List.filter_cons, TaskStage.isWaiting,
          tasks_runFinish]
        simp

theorem flushLoop_inv (env : Env) (l : List (Nat × TaskStage)) :
    ∀ st : SrvState,
    st.blockerResolved = true →
    (∀ p ∈ st.heap, p.1 < st.nextTok) →
    (∀ tok ch, List.lookup tok st.heap = some ch → C6prop ch) →
    (∀ p ∈ l, goodTask st.nextTok st.heap p) →
    (∀ p ∈ st.tasks, goodTask st.nextTok st.heap p) →
    distinctKeys (l ++ st.tasks) →
    (∀ p ∈ (flushLoop env l st).heap, p.1 < (flushLoop env l st).nextTok) ∧
    (∀ tok ch, List.lookup tok (flushLoop env l st).heap = some ch → C6prop ch) ∧
    (∀ p ∈ (flushLoop env l st).tasks,
      goodTask (flushLoop env l st).nextTok (flushLoop env l st).heap p) := by
  induction l with
  | nil =>
    intro st _ hhb hpb _ htg _
    exact ⟨hhb, hpb, htg⟩
  | cons p rest ih =>
    intro st hbr hhb hpb hlg htg hnd
    rw [List.cons_append] at hnd
    have hhead : ∀ b ∈ rest ++ st.tasks, p.1 ≠ b.1 := (List.pairwise_cons.1 hnd).1
    have htail : distinctKeys (rest ++ st.tasks) := (List.pairwise_cons.1 hnd).2
    rcases p with ⟨tok, stage⟩
    cases stage with
    | resolving =>
      simp only [flushLoop]
      refine ih _ hbr hhb hpb (fun q hq => hlg q (List.mem_cons_of_mem _ hq)) ?_ ?_
      · intro q hq
        rcases List.mem_append.1 hq with hq | hq
        · exact htg q hq
        · rcases List.mem_singleton.1 hq with rfl
          exact hlg _ (List.mem_cons_self _ _)
      · have h0 := List.pairwise_append.1 htail
        refine List.pairwise_append.2 ⟨h0.1, List.pairwise_append.2
          ⟨h0.2.1, List.pairwise_singleton _ _, ?_⟩, ?_⟩
        · intro a ha b hb
          rcases List.mem_singleton.1 hb with rfl
          exact fun he => hhead a (List.mem_append_right _ ha) he.symm
        · intro a ha b hb
          rcases List.mem_append.1 hb with hb | hb
          · exact h0.2.2 a ha b hb
          · rcases List.mem_singleton.1 hb with rfl
            exact fun he => hhead a (List.mem_append_left _ ha) he.symm
    | waitingBlocker config =>
      cases hl : List.lookup tok st.heap with
      | none =>
        simp only [flushLoop, hl]
        exact ih _ hbr hhb hpb (fun q hq => hlg q (List.mem_cons_of_mem _ hq)) htg htail
      | some ch =>
        have hgood := hlg _ (List.mem_cons_self _ _)
        have htlt : tok < st.nextTok := hgood.1
        have hw : chanWaiting config ch := hgood.2 ch hl
        have hfl := flags_parts (flagsOf_runFinish env st tok ch config)
        simp only [flushLoop, hl]
        refine ih (runFinish env st tok ch config) ?_ ?_ ?_ ?_ ?_ ?_
        · rw [hfl.2.1]
          exact hbr
        · rw [hfl.2.2.2.2]
          exact runFinish_hb env st tok ch config htlt hhb
        · exact runFinish_pb env st tok ch config hw hpb
        · intro q hq
          rw [hfl.2.2.2.2]
          have hne : q.1 ≠ tok := fun he =>
            hhead q (List.mem_append_left _ hq) he.symm
          exact goodTask_congr (runFinish_lookup_ne env st tok ch config hne)
            (hlg q (List.mem_cons_of_mem _ hq))
        · rw [tasks_runFinish, hfl.2.2.2.2]
          intro q hq
          have hne : q.1 ≠ tok := fun he =>
            hhead q (List.mem_append_right _ hq) he.symm
          exact goodTask_congr (runFinish_lookup_ne env st tok ch config hne) (htg q hq)
        · rw [tasks_runFinish]
          exact htail

/-! ### Invariant preservation for each event -/

theorem inv_stepConnect (env : Env) {st : SrvState} (h : Inv st) : Inv (stepConnect env st) := by
  show Inv (flushLoop env st.tasks
    { st with
      connected := true
      blockerResolved := true
      connState := true
      connLog := st.connLog ++ [true]
      tasks := [] })
  have key := flushLoop_inv env st.tasks
    { st with
      connected := true
      blockerResolved := true
      connState := true
      connLog := st.connLog ++ [true]
      tasks := [] }
    rfl h.hb h.pb h.tg (by intro p hp; cases hp)
    (by simpa [distinctKeys] using h.nd)
  have hfl := flags_parts (flagsOf_flushLoop env st.tasks
    { st with
      connected := true
      blockerResolved := true
      connState := true
      connLog := st.connLog ++ [true]
      tasks := [] })
  refine ⟨key.1, key.2.2, ?_, key.2.1, ?_, ?_⟩
  · show distinctKeys (flushLoop env st.tasks _).tasks
    rw [tasks_flushLoop]
    refine List.Pairwise.sublist ?_ h.nd
    simpa using List.filter_sublist st.tasks
  · intro hbr
    rw [hfl.2.1] at hbr
    simp at hbr
  · intro _
    rw [hfl.2.1]

theorem inv_stepDisconnect {st : SrvState} (h : Inv st) : Inv (stepDisconnect st) := by
  refine ⟨h.hb, h.tg, h.nd, h.pb, h.ns, ?_⟩
  intro hc
  simp [stepDisconnect] at hc

theorem inv_stepDisconnectChannel {st : SrvState} (tok : Nat) (h : Inv st) :
    Inv (stepDisconnectChannel st tok) := by
  cases hl : List.lookup tok st.heap with
  | none => simpa [stepDisconnectChannel, hl] using h
  | some ch =>
    have htok : tok < st.nextTok := h.hb _ (lookup_mem hl)
    have hheap : ∀ tok' ch',
        List.lookup tok' (aset tok
          { ch with currentState := .Shutdown, subscription := false } st.heap) = some ch' →
        (tok' = tok ∧ ch' = { ch with currentState := .Shutdown, subscription := false }) ∨
        List.lookup tok' st.heap = some ch' := by
      intro tok' ch' hl'
      by_cases he : tok' = tok
      · subst he
        rw [lookup_aset_self] at hl'
        cases hl'
        exact Or.inl ⟨rfl, rfl⟩
      · rw [lookup_aset_ne _ _ he] at hl'
        exact Or.inr hl'
    have hb' : ∀ p ∈ aset tok
        { ch with currentState := .Shutdown, subscription := false } st.heap,
        p.1 < st.nextTok := by
      intro p hp
      rcases mem_aset hp with he | ⟨hm, _⟩
      · rw [he]; exact htok
      · exact h.hb _ hm
    have tg' : ∀ p ∈ st.tasks, goodTask st.nextTok
        (aset tok { ch with currentState := .Shutdown, subscription := false } st.heap) p := by
      intro p hp
      have hg := h.tg p hp
      rcases p with ⟨tok', stage⟩
      cases stage with
      | resolving =>
        refine ⟨hg.1, ?_⟩
        intro ch' hl'
        rcases hheap _ _ hl' with ⟨he, rfl⟩ | hl'
        · subst he
          have := hg.2 ch hl
          exact ⟨this.1, this.2.1, rfl⟩
        · exact hg.2 _ hl'
      | waitingBlocker config =>
        refine ⟨hg.1, ?_⟩
        intro ch' hl'
        rcases hheap _ _ hl' with ⟨he, rfl⟩ | hl'
        · subst he
          have := hg.2 ch hl
          exact ⟨this.1, this.2.1, rfl⟩
        · exact hg.2 _ hl'
    have pb' : ∀ tok' ch',
        List.lookup tok' (aset tok
          { ch with currentState := .Shutdown, subscription := false } st.heap) = some ch' →
        C6prop ch' := by
      intro tok' ch' hl'
      rcases hheap _ _ hl' with ⟨he, rfl⟩ | hl'
      · have := h.pb _ _ hl
        exact ⟨fun hp => this.1 hp, by simp⟩
      · exact h.pb _ _ hl'
    have ns' : st.blockerResolved = false → ∀ tok' ch',
        List.lookup tok' (aset tok
          { ch with currentState := .Shutdown, subscription := false } st.heap) = some ch' →
        ch'.subscription = false := by
      intro hbr tok' ch' hl'
      rcases hheap _ _ hl' with ⟨he, rfl⟩ | hl'
      · rfl
      · exact h.ns hbr _ _ hl'
    have main : ∀ om : List (String × Nat),
        Inv { st with
          heap := aset tok { ch with currentState := .Shutdown, subscription := false } st.heap
          openMap := om } :=
      fun om => ⟨hb', tg', h.nd, pb', ns', h.cb⟩
    cases hcb : ch.hasShutdownCallback with
    | true =>
      have := main (adel ch.id st.openMap)
      simp only [stepDisconnectChannel, hl, hcb, if_true]
      simpa [hcb] using this
    | false =>
      have := main st.openMap
      simp only [stepDisconnectChannel, hl, hcb, if_false]
      simpa [hcb] using this

theorem goodTask_lt {n : Nat} {heap : List (Nat × Channel)} {p : Nat × TaskStage}
    (h : goodTask n heap p) : p.1 < n := by
  rcases p with ⟨tok, stage⟩
  cases stage <;> exact h.1

theorem goodTask_mono {n m : Nat} {heap : List (Nat × Channel)} {p : Nat × TaskStage}
    (hnm : n ≤ m) (h : goodTask n heap p) : goodTask m heap p := by
  rcases p with ⟨tok, stage⟩
  cases stage <;> exact ⟨lt_of_lt_of_le h.1 hnm, h.2⟩

theorem inv_catchInit {st : SrvState} (h : Inv st) (tok : Nat) (id e : String) :
    Inv (catchInit st tok id e) := by
  have hfl := flags_parts (flagsOf_catchInit st tok id e)
  have htk := tasks_catchInit st tok id e
  refine ⟨?_, ?_, ?_, ?_, ?_, ?_⟩
  · rw [hfl.2.2.2.2]
    exact catchInit_hb st tok id e h.hb
  · rw [htk, hfl.2.2.2.2]
    intro p hp
    have hg := h.tg p hp
    rcases p with ⟨tok', stage⟩
    cases stage with
    | resolving =>
      refine ⟨hg.1, ?_⟩
      intro ch' hl'
      rcases catchInit_shadow st tok id e _ _ hl' with ⟨ch0, hl0, e1, e2, e3⟩
      have := hg.2 ch0 hl0
      exact ⟨e1.trans this.1, e2.trans this.2.1, e3.trans this.2.2⟩
    | waitingBlocker config =>
      refine ⟨hg.1, ?_⟩
      intro ch' hl'
      rcases catchInit_shadow st tok id e _ _ hl' with ⟨ch0, hl0, e1, e2, e3⟩
      have := hg.2 ch0 hl0
      exact ⟨e1.trans this.1, e2.trans this.2.1, e3.trans this.2.2⟩
  · rw [htk]
    exact h.nd
  · intro tok' ch' hl'
    rcases catchInit_shadow st tok id e _ _ hl' with ⟨ch0, hl0, e1, e2, e3⟩
    have := h.pb _ _ hl0
    constructor
    · intro hp
      rcases this.1 (e2 ▸ hp) with ⟨cfg, hc1, hc2⟩
      exact ⟨cfg, e1.trans hc1, hc2⟩
    · intro hs
      rcases this.2 (e3 ▸ hs) with ⟨cfg, hc1, hc2⟩
      exact ⟨cfg, e1.trans hc1, by rw [e2]; exact hc2⟩
  · intro hbr
    rw [hfl.2.1] at hbr
    intro tok' ch' hl'
    rcases catchInit_shadow st tok id e _ _ hl' with ⟨ch0, hl0, _, _, e3⟩
    exact e3.trans (h.ns hbr _ _ hl0)
  · rw [hfl.1, hfl.2.1]
    exact h.cb

theorem inv_runFinish (env : Env) {st : SrvState} (h : Inv st) (tok : Nat) (ch : Channel)
    (config : LiveChannelConfig) (htok : tok < st.nextTok) (hw : chanWaiting config ch)
    (hfree : ∀ p ∈ st.tasks, p.1 ≠ tok) (hbr : st.blockerResolved = true) :
    Inv (runFinish env st tok ch config) := by
  have hfl := flags_parts (flagsOf_runFinish env st tok ch config)
  have htk := tasks_runFinish env st tok ch config
  refine ⟨?_, ?_, ?_, ?_, ?_, ?_⟩
  · rw [hfl.2.2.2.2]
    exact runFinish_hb env st tok ch config htok h.hb
  · rw [htk, hfl.2.2.2.2]
    intro p hp
    exact goodTask_congr (runFinish_lookup_ne env st tok ch config (hfree p hp)) (h.tg p hp)
  · rw [htk]
    exact h.nd
  · exact runFinish_pb env st tok ch config hw h.pb
  · intro hbr'
    rw [hfl.2.1, hbr] at hbr'
    cases hbr'
  · intro _
    rw [hfl.2.1]
    exact hbr

theorem inv_stepGetChannel (env : Env) {st : SrvState} (h : Inv st) (s n p : String) :
    Inv (step env st (.getChannel s n p)) := by
  show Inv (match getChannelE st s n p with
    | .ok (_, st') => st'
    | .error _ => st)
  cases hm : List.lookup (channelId s n p) st.openMap with
  | some t =>
    simp only [getChannelE, hm]
    exact h
  | none =>
    cases hs : scopeOf s with
    | none =>
      simp only [getChannelE, hm, hs]
      refine ⟨?_, ?_, h.nd, ?_, ?_, h.cb⟩
      · intro q hq
        rcases mem_aset hq with he | ⟨hmem, _⟩
        · rw [he]
          exact Nat.lt_succ_self _
        · exact Nat.lt_succ_of_lt (h.hb _ hmem)
      · intro q hq
        have hg := h.tg q hq
        have hne : q.1 ≠ st.nextTok := Nat.ne_of_lt (goodTask_lt hg)
        exact goodTask_mono (Nat.le_succ _) (goodTask_congr (lookup_aset_ne _ _ hne) hg)
      · intro tok' ch' hl'
        by_cases he : tok' = st.nextTok
        · subst he
          rw [lookup_aset_self] at hl'
          cases hl'
          exact ⟨by simp [getErrorChannel], by simp [getErrorChannel]⟩
        · rw [lookup_aset_ne _ _ he] at hl'
          exact h.pb _ _ hl'
      · intro hbr tok' ch' hl'
        by_cases he : tok' = st.nextTok
        · subst he
          rw [lookup_aset_self] at hl'
          cases hl'
          rfl
        · rw [lookup_aset_ne _ _ he] at hl'
          exact h.ns hbr _ _ hl'
    | some sc =>
      simp only [getChannelE, hm, hs]
      refine ⟨?_, ?_, ?_, ?_, ?_, h.cb⟩
      · intro q hq
        rcases mem_aset hq with he | ⟨hmem, _⟩
        · rw [he]
          exact Nat.lt_succ_self _
        · exact Nat.lt_succ_of_lt (h.hb _ hmem)
      · intro q hq
        rcases List.mem_append.1 hq with hq | hq
        · have hg := h.tg q hq
          have hne : q.1 ≠ st.nextTok := Nat.ne_of_lt (goodTask_lt hg)
          exact goodTask_mono (Nat.le_succ _) (goodTask_congr (lookup_aset_ne _ _ hne) hg)
        · rcases List.mem_singleton.1 hq with rfl
          refine ⟨Nat.lt_succ_self _, ?_⟩
          intro ch' hl'
          rw [lookup_aset_self] at hl'
          cases hl'
          exact ⟨rfl, rfl, rfl⟩
      · refine List.pairwise_append.2 ⟨h.nd, List.pairwise_singleton _ _, ?_⟩
        intro a ha b hb
        rcases List.mem_singleton.1 hb with rfl
        exact Nat.ne_of_lt (goodTask_lt (h.tg a ha))
      · intro tok' ch' hl'
        by_cases he : tok' = st.nextTok
        · subst he
          rw [lookup_aset_self] at hl'
          cases hl'
          exact ⟨by simp [newChannel], by simp [newChannel]⟩
        · rw [lookup_aset_ne _ _ he] at hl'
          exact h.pb _ _ hl'
      · intro hbr tok' ch' hl'
        by_cases he : tok' = st.nextTok
        · subst he
          rw [lookup_aset_self] at hl'
          cases hl'
          rfl
        · rw [lookup_aset_ne _ _ he] at hl'
          exact h.ns hbr _ _ hl'

theorem adel_free [BEq α] [LawfulBEq α] {k : α} {l : List (α × β)} :
    ∀ p ∈ adel k l, p.1 ≠ k := by
  intro p hp
  exact (mem_adel hp).2

theorem inv_removeTask {st : SrvState} (h : Inv st) (tok : Nat) :
    Inv { st with tasks := adel tok st.tasks } := by
  refine ⟨h.hb, ?_, ?_, h.pb, h.ns, h.cb⟩
  · intro p hp
    exact h.tg p (mem_adel hp).1
  · exact h.nd.sublist (adel_sublist _ _)

theorem inv_stepResolve (env : Env) {st : SrvState} (h : Inv st) (tok : Nat) :
    Inv (stepResolve env st tok) := by
  cases ht : List.lookup tok st.tasks with
  | none => simpa [stepResolve, ht] using h
  | some stage =>
    cases stage with
    | waitingBlocker config => simpa [stepResolve, ht] using h
    | resolving =>
      have hmem : (tok, TaskStage.resolving) ∈ st.tasks := lookup_mem ht
      have hgood := h.tg _ hmem
      have htok : tok < st.nextTok := hgood.1
      have h0 : Inv { st with tasks := adel tok st.tasks } := inv_removeTask h tok
      simp only [stepResolve, ht]
      cases hl : List.lookup tok st.heap with
      | none =>
        simp only [hl]
        exact h0
      | some ch =>
        have hch : chanResolving ch := hgood.2 ch hl
        simp only [hl]
        rw [initChannel]
        cases hgs : env.getChannelSupport ch.scope ch.nspace with
        | error e =>
          show Inv (catchInit { st with tasks := adel tok st.tasks } tok ch.id e)
          exact inv_catchInit h0 tok ch.id e
        | ok osupport =>
          cases osupport with
          | none =>
            show Inv (catchInit { st with tasks := adel tok st.tasks } tok ch.id
              (ch.nspace ++ "does not support streaming"))
            exact inv_catchInit h0 tok ch.id _
          | some support =>
            show Inv (match initChannelCfg env { st with tasks := adel tok st.tasks } tok ch
                (support.getChannelConfig ch.path) with
              | .ok st' => st'
              | .err e st' => catchInit st' tok ch.id e)
            cases hcfg : support.getChannelConfig ch.path with
            | none =>
              show Inv (catchInit { st with tasks := adel tok st.tasks } tok ch.id
                ("unknown path: " ++ ch.path))
              exact inv_catchInit h0 tok ch.id _
            | some config =>
              show Inv (match initChannelCfg env { st with tasks := adel tok st.tasks } tok ch
                  (some config) with
                | .ok st' => st'
                | .err e st' => catchInit st' tok ch.id e)
              rw [initChannelCfg]
              by_cases hbc : (!st.connected && !st.blockerResolved) = true
              · rw [if_pos hbc]
                show Inv { st with
                  heap := aset tok { ch with config := some config } st.heap
                  tasks := adel tok st.tasks ++ [(tok, TaskStage.waitingBlocker config)] }
                refine ⟨?_, ?_, ?_, ?_, ?_, h.cb⟩
                · intro q hq
                  rcases mem_aset hq with he | ⟨hmem2, _⟩
                  · rw [he]
                    exact htok
                  · exact h.hb _ hmem2
                · intro q hq
                  rcases List.mem_append.1 hq with hq | hq
                  · have hg := h0.tg q hq
                    have hne : q.1 ≠ tok := adel_free q hq
                    exact goodTask_congr (lookup_aset_ne _ _ hne) hg
                  · rcases List.mem_singleton.1 hq with rfl
                    refine ⟨htok, ?_⟩
                    intro ch2 hl2
                    rw [lookup_aset_self] at hl2
                    cases hl2
                    exact ⟨rfl, hch.2.1, hch.2.2⟩
                · refine List.pairwise_append.2 ⟨h0.nd, List.pairwise_singleton _ _, ?_⟩
                  intro a ha b hb
                  rcases List.mem_singleton.1 hb with rfl
                  exact adel_free a ha
                · intro tok2 ch2 hl2
                  by_cases he : tok2 = tok
                  · subst he
                    rw [lookup_aset_self] at hl2
                    cases hl2
                    refine ⟨?_, ?_⟩
                    · intro hp
                      rw [hch.2.1] at hp
                      cases hp
                    · intro hsub
                      rw [hch.2.2] at hsub
                      cases hsub
                  · rw [lookup_aset_ne _ _ he] at hl2
                    exact h.pb _ _ hl2
                · intro hbr tok2 ch2 hl2
                  by_cases he : tok2 = tok
                  · subst he
                    rw [lookup_aset_self] at hl2
                    cases hl2
                    exact hch.2.2
                  · rw [lookup_aset_ne _ _ he] at hl2
                    exact h.ns hbr _ _ hl2
              · rw [if_neg hbc]
                have hbr : st.blockerResolved = true := by
                  cases hc : st.connected with
                  | true => exact h.cb hc
                  | false =>
                    cases hb2 : st.blockerResolved with
                    | true => rfl
                    | false => exact absurd (by rw [hc, hb2]; rfl) hbc
                show Inv (runFinish env
                  { st with
                    tasks := adel tok st.tasks
                    heap := aset tok { ch with config := some config } st.heap }
                  tok { ch with config := some config } config)
                have key : Inv { st with
                    tasks := adel tok st.tasks
                    heap := aset tok { ch with config := some config } st.heap } := by
                  refine ⟨?_, ?_, h0.nd, ?_, ?_, h.cb⟩
                  · intro q hq
                    rcases mem_aset hq with he | ⟨hmem2, _⟩
                    · rw [he]
                      exact htok
                    · exact h.hb _ hmem2
                  · intro q hq
                    have hg := h0.tg q hq
                    have hne : q.1 ≠ tok := adel_free q hq
                    exact goodTask_congr (lookup_aset_ne _ _ hne) hg
                  · intro tok2 ch2 hl2
                    by_cases he : tok2 = tok
                    · subst he
                      rw [lookup_aset_self] at hl2
                      cases hl2
                      refine ⟨?_, ?_⟩
                      · intro hp
                        rw [hch.2.1] at hp
                        cases hp
                      · intro hsub
                        rw [hch.2.2] at hsub
                        cases hsub
                    · rw [lookup_aset_ne _ _ he] at hl2
                      exact h.pb _ _ hl2
                  · intro hbr2 tok2 ch2 hl2
                    rw [hbr] at hbr2
                    cases hbr2
                refine inv_runFinish env key tok _ config htok ⟨rfl, hch.2.1, hch.2.2⟩ ?_ hbr
                intro q hq
                exact adel_free q hq

theorem inv_step (env : Env) {st : SrvState} (h : Inv st) (e : Event) :
    Inv (step env st e) := by
  cases e with
  | getChannel s n p => exact inv_stepGetChannel env h s n p
  | resolveInit tok => exact inv_stepResolve env h tok
  | connect => exact inv_stepConnect env h
  | disconnect => exact inv_stepDisconnect h
  | disconnectChannel tok => exact inv_stepDisconnectChannel tok h

theorem inv_initState (c0 : Bool) : Inv (initState c0) := by
  refine ⟨?_, ?_, ?_, ?_, ?_, ?_⟩
  · intro p hp
    cases hp
  · intro p hp
    cases hp
  · exact List.Pairwise.nil
  · intro tok ch hl
    cases hl
  · intro _ tok ch hl
    cases hl
  · intro hc
    exact hc

theorem inv_run (env : Env) (l : List Event) {st : SrvState} (h : Inv st) :
    Inv (run env st l) := by
  induction l generalizing st with
  | nil => exact h
  | cons e es ih => exact ih (inv_step env h e)

/-! ### Connection-view equations for each event -/

theorem flagsOf_stepResolve (env : Env) (st : SrvState) (tok : Nat) :
    flagsOf (stepResolve env st tok) = flagsOf st := by
  cases ht : List.lookup tok st.tasks with
  | none => simp only [stepResolve, ht]
  | some stage =>
    cases stage with
    | waitingBlocker config => simp only [stepResolve, ht]
    | resolving =>
      simp only [stepResolve, ht]
      cases hl : List.lookup tok st.heap with
      | none =>
        simp only [hl]
        rfl
      | some ch =>
        simp only [hl]
        rw [initChannel]
        cases hgs : env.getChannelSupport ch.scope ch.nspace with
        | error e =>
          show flagsOf (catchInit { st with tasks := adel tok st.tasks } tok ch.id e) = flagsOf st
          rw [flagsOf_catchInit]
          rfl
        | ok osupport =>
          cases osupport with
          | none =>
            show flagsOf (catchInit { st with tasks := adel tok st.tasks } tok ch.id
              (ch.nspace ++ "does not support streaming")) = flagsOf st
            rw [flagsOf_catchInit]
            rfl
          | some support =>
            show flagsOf (match initChannelCfg env { st with tasks := adel tok st.tasks } tok ch
                (support.getChannelConfig ch.path) with
              | .ok st' => st'
              | .err e st' => catchInit st' tok ch.id e) = flagsOf st
            cases hcfg : support.getChannelConfig ch.path with
            | none =>
              show flagsOf (catchInit { st with tasks := adel tok st.tasks } tok ch.id
                ("unknown path: " ++ ch.path)) = flagsOf st
              rw [flagsOf_catchInit]
              rfl
            | some config =>
              show flagsOf (match initChannelCfg env { st with tasks := adel tok st.tasks } tok ch
                  (some config) with
                | .ok st' => st'
                | .err e st' => catchInit st' tok ch.id e) = flagsOf st
              rw [initChannelCfg]
              by_cases hbc : (!st.connected && !st.blockerResolved) = true
              · rw [if_pos hbc]
                rfl
              · rw [if_neg hbc]
                show flagsOf (runFinish env
                  { st with
                    tasks := adel tok st.tasks
                    heap := aset tok { ch with config := some config } st.heap }
                  tok { ch with config := some config } config) = flagsOf st
                rw [flagsOf_runFinish]
                rfl

theorem flagsOf_stepDisconnectChannel (st : SrvState) (tok : Nat) :
    flagsOf (stepDisconnectChannel st tok) = flagsOf st := by
  cases hl : List.lookup tok st.heap with
  | none => simp only [stepDisconnectChannel, hl]
  | some ch =>
    by_cases hcb : ch.hasShutdownCallback = true <;>
      simp only [stepDisconnectChannel, hl, hcb, if_true, if_false, Bool.false_eq_true] <;>
      rfl

/-- The connection-related view of the state: the transport flag, the
blocker flag and the `connectionState` value and emission history. -/
def connView (st : SrvState) : Bool × Bool × Bool × List Bool :=
  (st.connected, st.blockerResolved, st.connState, st.connLog)

theorem connView_parts {a b : SrvState} (h : connView a = connView b) :
    a.connected = b.connected ∧ a.blockerResolved = b.blockerResolved ∧
    a.connState = b.connState ∧ a.connLog = b.connLog :=
  ⟨congrArg (fun t => t.1) h, congrArg (fun t => t.2.1) h,
    congrArg (fun t => t.2.2.1) h, congrArg (fun t => t.2.2.2) h⟩

theorem connView_of_flagsOf {a b : SrvState} (h : flagsOf a = flagsOf b) :
    connView a = connView b :=
  congrArg (fun t => (t.1, t.2.1, t.2.2.1, t.2.2.2.1)) h

theorem connView_stepGetChannel (env : Env) (st : SrvState) (s n p : String) :
    connView (step env st (.getChannel s n p)) = connView st := by
  show connView (match getChannelE st s n p with
    | .ok (_, st') => st'
    | .error _ => st) = connView st
  cases hm : List.lookup (channelId s n p) st.openMap with
  | some t =>
    simp only [getChannelE, hm]
  | none =>
    cases hs : scopeOf s with
    | none => simp only [getChannelE, hm, hs]; rfl
    | some sc => simp only [getChannelE, hm, hs]; rfl

theorem connView_stepConnect (env : Env) (st : SrvState) :
    (step env st .connect).connState = true ∧
    (step env st .connect).connLog = st.connLog ++ [true] ∧
    (step env st .connect).connected = true ∧
    (step env st .connect).blockerResolved = true := by
  have hfl := flags_parts (flagsOf_flushLoop env st.tasks
    { st with
      connected := true
      blockerResolved := true
      connState := true
      connLog := st.connLog ++ [true]
      tasks := [] })
  exact ⟨hfl.2.2.1, hfl.2.2.2.1, hfl.1, hfl.2.1⟩

/-- The connection blocker stays unresolved along any trace with no
transport connect event. -/
theorem blocker_run_no_connect (env : Env) (l : List Event) :
    Event.connect ∉ l → ∀ st : SrvState, st.blockerResolved = false →
    (run env st l).blockerResolved = false := by
  induction l with
  | nil =>
    intro _ st h
    exact h
  | cons e es ih =>
    intro hne st h
    have hee : e ≠ Event.connect := fun he => hne (he ▸ List.mem_cons_self _ _)
    have hes : Event.connect ∉ es := fun hm => hne (List.mem_cons_of_mem _ hm)
    refine ih hes _ ?_
    cases e with
    | getChannel s n p =>
      rw [(connView_parts (connView_stepGetChannel env st s n p)).2.1]
      exact h
    | resolveInit tok =>
      show (stepResolve env st tok).blockerResolved = false
      rw [(flags_parts (flagsOf_stepResolve env st tok)).2.1]
      exact h
    | connect => exact absurd rfl hee
    | disconnect => exact h
    | disconnectChannel tok =>
      show (stepDisconnectChannel st tok).blockerResolved = false
      rw [(flags_parts (flagsOf_stepDisconnectChannel st tok)).2.1]
      exact h

/-- After a connect event no continuation is left suspended on the
blocker: they all resumed at that event. -/
theorem stepConnect_noWaiting (env : Env) (st : SrvState) :
    ∀ q ∈ (step env st .connect).tasks, q.2.isWaiting = false := by
  show ∀ q ∈ (flushLoop env st.tasks
    { st with
      connected := true
      blockerResolved := true
      connState := true
      connLog := st.connLog ++ [true]
      tasks := [] }).tasks, q.2.isWaiting = false
  rw [tasks_flushLoop]
  intro q hq
  rcases List.mem_append.1 hq with hq | hq
  · cases hq
  · have := (List.mem_filter.1 hq).2
    simpa using this

theorem catchInit_result {st : SrvState} {tok : Nat} {ch : Channel} (id e : String)
    (hl : List.lookup tok st.heap = some ch) :
    List.lookup tok (catchInit st tok id e).heap =
      some { ch with currentState := .Shutdown, error := some e } ∧
    List.lookup id (catchInit st tok id e).openMap = none := by
  constructor
  · simp only [catchInit, hl]
    exact lookup_aset_self _ _ _
  · simp only [catchInit, hl]
    exact lookup_adel_self _ _

/-- Whenever the `initChannel` body rejects, the channel object is still
on the heap (with its id unchanged) and the registry is unchanged: the
rejection itself touched neither. -/
theorem initChannel_err_heap (env : Env) (st : SrvState) (tok : Nat) (ch : Channel)
    (e : String) (stE : SrvState) (hheap : List.lookup tok st.heap = some ch)
    (h : initChannel env st tok ch = .err e stE) :
    (∃ ch2, List.lookup tok stE.heap = some ch2 ∧ ch2.id = ch.id) ∧
    stE.openMap = st.openMap := by
  rw [initChannel] at h
  cases hgs : env.getChannelSupport ch.scope ch.nspace with
  | error e0 =>
    rw [hgs] at h
    simp only [initChannelSupport] at h
    cases h
    exact ⟨⟨ch, hheap, rfl⟩, rfl⟩
  | ok osupport =>
    rw [hgs] at h
    cases osupport with
    | none =>
      simp only [initChannelSupport] at h
      cases h
      exact ⟨⟨ch, hheap, rfl⟩, rfl⟩
    | some support =>
      simp only [initChannelSupport] at h
      cases hcfg : support.getChannelConfig ch.path with
      | none =>
        rw [hcfg] at h
        simp only [initChannelCfg] at h
        cases h
        exact ⟨⟨ch, hheap, rfl⟩, rfl⟩
      | some config =>
        rw [hcfg] at h
        simp only [initChannelCfg] at h
        by_cases hbc : (!st.connected && !st.blockerResolved) = true
        · rw [if_pos hbc] at h
          cases h
        · rw [if_neg hbc] at h
          simp only [finishInit] at h
          cases hsub : env.subscribeResult ({ ch with config := some config } : Channel).id with
          | ok u =>
            rw [hsub] at h
            cases h
          | error e2 =>
            rw [hsub] at h
            cases h
            by_cases hcp : config.canPublish = some true
            · rw [if_pos hcp]
              exact ⟨⟨_, lookup_aset_self _ _ _, rfl⟩, rfl⟩
            · rw [if_neg hcp]
              exact ⟨⟨_, lookup_aset_self _ _ _, rfl⟩, rfl⟩

/-! ### Address model round-trip lemmas -/

theorem splitOnSlash_channelId (sc : LiveChannelScope) (n p : String)
    (hns : '/' ∉ n.data) (hps : '/' ∉ p.data) :
    splitOnSlash (channelId sc.str n p).data = [sc.str.data, n.data, p.data] := by
  have hslash : ("/" : String).data = ['/'] := rfl
  have hdata : (channelId sc.str n p).data =
      sc.str.data ++ '/' :: (n.data ++ '/' :: p.data) := by
    show (sc.str ++ "/" ++ n ++ "/" ++ p).data = _
    simp only [String.data_append, hslash]
    simp
  have hsc : '/' ∉ sc.str.data := by
    cases sc <;> decide
  rw [hdata, splitOnSlash_append _ hsc, splitOnSlash_append _ hns,
    splitOnSlash_no_sep hps]

/-! ### Concrete fixtures used by the witnesses -/

/-- A channel config whose publish predicate returns true. -/
def cfgPub : LiveChannelConfig :=
  { path := "b", description := none, hasPresense := none, canPublish := some true }

/-- A scope resolver offering `cfgPub` on every path. -/
def supPub : ChannelSupport :=
  { getChannelConfig := fun _ => some cfgPub, getSupportedPaths := [cfgPub] }

/-- An environment where every namespace resolves and subscribing succeeds. -/
def envPub : Env :=
  { getChannelSupport := fun _ _ => .ok (some supPub), subscribeResult := fun _ => .ok () }

/-- An environment where no namespace has channel support. -/
def envNone : Env :=
  { getChannelSupport := fun _ _ => .ok none, subscribeResult := fun _ => .ok () }

/-- The state right after `getChannel('grafana','a','b')` on a fresh
disconnected service. -/
def stA : SrvState :=
  ((getChannelE (initState false) "grafana" "a" "b").toOption.map Prod.snd).getD
    (initState false)

/-- The channel object created by that call. -/
def chA : Channel :=
  (List.lookup 0 stA.heap).getD (newChannel "" "" "" "")

/-! ### The claims -/

/-- C1: while a channel with a given id is registered as open, a
`getChannel` call computing that id returns the identical registered
instance and leaves the state untouched; consequently two `getChannel`
calls for the same address (with a recognized scope), the second made
before any further event — in particular before the first one's
initialization completed — return the identical channel instance. -/
theorem getChannel_dedup (st : SrvState) (s n p : String) :
    (∀ tok, List.lookup (channelId s n p) st.openMap = some tok →
      getChannelE st s n p = .ok (tok, st)) ∧
    (scopeOf s ≠ none →
      ∀ tok1 st1, getChannelE st s n p = .ok (tok1, st1) →
        getChannelE st1 s n p = .ok (tok1, st1)) := by
  constructor
  · intro tok hm
    simp only [getChannelE]
    rw [hm]
  · intro hs tok1 st1 hE
    cases hm : List.lookup (channelId s n p) st.openMap with
    | some t =>
      have h1 : getChannelE st s n p = .ok (t, st) := by
        simp only [getChannelE]
        rw [hm]
      rw [h1] at hE
      cases hE
      exact h1
    | none =>
      cases hsc : scopeOf s with
      | none => exact absurd hsc hs
      | some sc =>
        have h1 : getChannelE st s n p = .ok (st.nextTok,
            { st with
              nextTok := st.nextTok + 1
              heap := aset st.nextTok
                (newChannel (channelId s n p) s n p) st.heap
              openMap := aset (channelId s n p) st.nextTok st.openMap
              tasks := st.tasks ++ [(st.nextTok, .resolving)] }) := by
          simp only [getChannelE]
          rw [hm, hsc]
        rw [h1] at hE
        cases hE
        simp only [getChannelE]
        rw [lookup_aset_self]

/-- C1 witness: a second `getChannel('grafana','a','b')` call right
after the first returns the same channel (token 0) and does not change
the state. -/
theorem getChannel_dedup_witness :
    getChannelE stA "grafana" "a" "b" = .ok (0, stA) :=
  (getChannel_dedup (initState false) "grafana" "a" "b").2
    (by decide) 0 stA (by rfl)

/-- C10: `getChannel` is total and synchronous: on every input and in
every state it returns a channel value (`Except.ok`), never an error —
the only fallible work is deferred to a pending initialization task
whose rejection is consumed by the attached catch handler
(`stepResolve` routes `InitResult.err` into `catchInit`). -/
theorem getChannel_total (st : SrvState) (s n p : String) :
    ∃ tok st', getChannelE st s n p = .ok (tok, st') := by
  cases hm : List.lookup (channelId s n p) st.openMap with
  | some t =>
    refine ⟨t, st, ?_⟩
    simp only [getChannelE]
    rw [hm]
  | none =>
    cases hsc : scopeOf s with
    | none =>
      refine ⟨st.nextTok,
        { st with
          nextTok := st.nextTok + 1
          heap := aset st.nextTok
            (getErrorChannel "invalid scope" (channelId s n p) s n p) st.heap }, ?_⟩
      simp only [getChannelE]
      rw [hm, hsc]
    | some sc =>
      refine ⟨st.nextTok,
        { st with
          nextTok := st.nextTok + 1
          heap := aset st.nextTok (newChannel (channelId s n p) s n p) st.heap
          openMap := aset (channelId s n p) st.nextTok st.openMap
          tasks := st.tasks ++ [(st.nextTok, .resolving)] }, ?_⟩
      simp only [getChannelE]
      rw [hm, hsc]

/-- Whenever the post-blocker tail of `initChannel` rejects (the only
rejection there is a failed `centrifuge.subscribe`), the channel object
is on the heap of the carried state — with the publish mutation kept, as
in JavaScript — with its id unchanged, and the registry is unchanged:
the rejection itself touched neither. -/
theorem finishInit_err_heap (env : Env) (st : SrvState) (tok : Nat) (ch : Channel)
    (config : LiveChannelConfig) (e : String) (stE : SrvState)
    (h : finishInit env st tok ch config = .err e stE) :
    (∃ ch2, List.lookup tok stE.heap = some ch2 ∧ ch2.id = ch.id) ∧
    stE.openMap = st.openMap := by
  simp only [finishInit] at h
  cases hsub : env.subscribeResult ch.id with
  | ok u =>
    rw [hsub] at h
    cases h
  | error e2 =>
    rw [hsub] at h
    cases h
    by_cases hcp : config.canPublish = some true
    · rw [if_pos hcp]
      exact ⟨⟨_, lookup_aset_self _ _ _, rfl⟩, rfl⟩
    · rw [if_neg hcp]
      exact ⟨⟨_, lookup_aset_self _ _ _, rfl⟩, rfl⟩

/-- C2: whenever the initialization sequence of a channel rejects with
any exception `e`, the catch handler attached in `getChannel` consumes
it (the event handler is the total function `catchInit`, so nothing is
rethrown), the channel ends Shutdown with that error and its original
id, and the channel's id is deleted from the registry map.  Both points
where a rejection can surface are covered: (1) the resolution event of
`scope.getChannelSupport`, which runs the rest of the `initChannel`
body — a rejected support resolution, a missing support, an unknown
path, or, when the channel need not wait for the transport, a failed
subscribe; (2) the continuation of a channel suspended on the connection
blocker, resumed during the transport connect event — `flushLoop`
applies exactly `runFinish`, the catch-wrapped post-blocker tail, to
every such channel, so a subscribe failure after the connection wait is
handled the same way. -/
theorem initFailure_shutdown_deregistered :
    (∀ (env : Env) (st : SrvState) (tok : Nat) (ch : Channel) (e : String) (stE : SrvState),
      List.lookup tok st.tasks = some TaskStage.resolving →
      List.lookup tok st.heap = some ch →
      initChannel env { st with tasks := adel tok st.tasks } tok ch = .err e stE →
      stepResolve env st tok = catchInit stE tok ch.id e ∧
      (∃ ch', List.lookup tok (stepResolve env st tok).heap = some ch' ∧
        ch'.currentState = .Shutdown ∧ ch'.error = some e ∧ ch'.id = ch.id) ∧
      List.lookup ch.id (stepResolve env st tok).openMap = none) ∧
    (∀ (env : Env) (st : SrvState) (tok : Nat) (ch : Channel) (config : LiveChannelConfig)
      (e : String) (stE : SrvState),
      finishInit env st tok ch config = .err e stE →
      runFinish env st tok ch config = catchInit stE tok ch.id e ∧
      (∃ ch', List.lookup tok (runFinish env st tok ch config).heap = some ch' ∧
        ch'.currentState = .Shutdown ∧ ch'.error = some e ∧ ch'.id = ch.id) ∧
      List.lookup ch.id (runFinish env st tok ch config).openMap = none) := by
  constructor
  · intro env st tok ch e stE htask hheap hinit
    have hstep : stepResolve env st tok = catchInit stE tok ch.id e := by
      simp only [stepResolve, htask, hheap]
      rw [hinit]
    have hshape := initChannel_err_heap env { st with tasks := adel tok st.tasks }
      tok ch e stE hheap hinit
    rcases hshape.1 with ⟨ch2, hl2, hid2⟩
    have hres := catchInit_result ch.id e hl2
    refine ⟨hstep, ⟨{ ch2 with currentState := .Shutdown, error := some e }, ?_, rfl, rfl, hid2⟩, ?_⟩
    · rw [hstep]
      exact hres.1
    · rw [hstep]
      exact hres.2
  · intro env st tok ch config e stE hfin
    have hstep : runFinish env st tok ch config = catchInit stE tok ch.id e := by
      simp only [runFinish]
      rw [hfin]
    have hshape := finishInit_err_heap env st tok ch config e stE hfin
    rcases hshape.1 with ⟨ch2, hl2, hid2⟩
    have hres := catchInit_result ch.id e hl2
    refine ⟨hstep, ⟨{ ch2 with currentState := .Shutdown, error := some e }, ?_, rfl, rfl, hid2⟩, ?_⟩
    · rw [hstep]
      exact hres.1
    · rw [hstep]
      exact hres.2

/-- The state after `getChannel('grafana','x','y')` on a fresh
disconnected service whose scopes resolve no support. -/
def stB : SrvState :=
  ((getChannelE (initState false) "grafana" "x" "y").toOption.map Prod.snd).getD
    (initState false)

/-- That call's channel object. -/
def chB : Channel :=
  (List.lookup 0 stB.heap).getD (newChannel "" "" "" "")

/-- An environment whose namespaces all resolve to `supPub` but where
every `centrifuge.subscribe` call fails. -/
def envSubFail : Env :=
  { getChannelSupport := fun _ _ => .ok (some supPub)
    subscribeResult := fun _ => .error "sub-fail" }

/-- The state at which the connect event's `flushLoop` resumes the
blocker-suspended `grafana/a/b` channel under `envSubFail`: the channel
was created and resolved while disconnected, then the connect callback
set the flags, emitted `true` and took the task list, exactly as
`stepConnect` does before calling `flushLoop`. -/
def stF : SrvState :=
  { run envSubFail (initState false)
      [Event.getChannel "grafana" "a" "b", Event.resolveInit 0] with
    connected := true
    blockerResolved := true
    connState := true
    connLog := [true]
    tasks := [] }

/-- The blocker-suspended channel object resumed at that point. -/
def chF : Channel :=
  (List.lookup 0 stF.heap).getD (newChannel "" "" "" "")

/-- The carried state of the rejected post-blocker tail. -/
def InitResult.state : InitResult → SrvState
  | .ok st => st
  | .err _ st => st

/-- The state carried by the subscribe rejection of `chF`. -/
def stFE : SrvState :=
  (finishInit envSubFail stF 0 chF cfgPub).state

/-- C2 witness, covering both surfacing points: (1) with no channel
support, the resolution step shuts `grafana/x/y` down with the thrown
error and deregisters the id; (2) when `centrifuge.subscribe` fails for
a channel resumed from the connection blocker at the connect event, the
resumed continuation shuts `grafana/a/b` down with the subscribe error
and deregisters the id. -/
theorem initFailure_shutdown_deregistered_witness :
    (∃ ch', List.lookup 0 (stepResolve envNone stB 0).heap = some ch' ∧
      ch'.currentState = .Shutdown ∧
      ch'.error = some "xdoes not support streaming" ∧ ch'.id = chB.id) ∧
    (∃ ch', List.lookup 0 (runFinish envSubFail stF 0 chF cfgPub).heap = some ch' ∧
      ch'.currentState = .Shutdown ∧ ch'.error = some "sub-fail" ∧ ch'.id = chF.id) ∧
    List.lookup chF.id (runFinish envSubFail stF 0 chF cfgPub).openMap = none :=
  ⟨(initFailure_shutdown_deregistered.1 envNone stB 0 chB "xdoes not support streaming"
      { stB with tasks := adel 0 stB.tasks } (by rfl) (by rfl) (by rfl)).2.1,
    (initFailure_shutdown_deregistered.2 envSubFail stF 0 chF cfgPub "sub-fail" stFE
      (by rfl)).2.1,
    (initFailure_shutdown_deregistered.2 envSubFail stF 0 chF cfgPub "sub-fail" stFE
      (by rfl)).2.2⟩

/-- C5: after a registered channel's `disconnect()`/shutdown has run,
its id maps to no registry entry, and a subsequent `getChannel` for the
same address does not return that instance: it allocates a fresh channel
(a different heap token), registers it, and the fresh channel starts in
Pending state.  The hypothesis `hhb` is the allocation invariant (every
heap token is below the allocation counter), which holds in every
reachable state by `inv_run`. -/
theorem disconnect_then_fresh (st : SrvState) (tok : Nat) (ch : Channel) (s n p : String)
    (hhb : ∀ q ∈ st.heap, q.1 < st.nextTok)
    (hheap : List.lookup tok st.heap = some ch)
    (hid : ch.id = channelId s n p)
    (hcb : ch.hasShutdownCallback = true)
    (hreg : List.lookup (channelId s n p) st.openMap = some tok)
    (hscope : scopeOf s ≠ none) :
    List.lookup (channelId s n p) (stepDisconnectChannel st tok).openMap = none ∧
    ∃ st2, getChannelE (stepDisconnectChannel st tok) s n p = .ok (st.nextTok, st2) ∧
      st.nextTok ≠ tok ∧
      ∃ ch2, List.lookup st.nextTok st2.heap = some ch2 ∧
        ch2.currentState = .Pending := by
  have htok : tok < st.nextTok := hhb _ (lookup_mem hheap)
  have hst1 : stepDisconnectChannel st tok =
      { st with
        heap := aset tok { ch with currentState := .Shutdown, subscription := false } st.heap
        openMap := adel ch.id st.openMap } := by
    simp only [stepDisconnectChannel, hheap, hcb, if_true]
  have hnone : List.lookup (channelId s n p)
      (stepDisconnectChannel st tok).openMap = none := by
    rw [hst1, ← hid]
    exact lookup_adel_self _ _
  cases hsc : scopeOf s with
  | none => exact absurd hsc hscope
  | some sc =>
    refine ⟨hnone, ?_⟩
    refine ⟨{ stepDisconnectChannel st tok with
      nextTok := st.nextTok + 1
      heap := aset st.nextTok (newChannel (channelId s n p) s n p)
        (stepDisconnectChannel st tok).heap
      openMap := aset (channelId s n p) st.nextTok
        (stepDisconnectChannel st tok).openMap
      tasks := (stepDisconnectChannel st tok).tasks ++
        [(st.nextTok, .resolving)] }, ?_, Nat.ne_of_gt htok, ?_⟩
    · have hnx : (stepDisconnectChannel st tok).nextTok = st.nextTok := by
        rw [hst1]
      conv_lhs => rw [getChannelE]
      rw [hnone, hsc, hnx]
    · exact ⟨newChannel (channelId s n p) s n p, lookup_aset_self _ _ _, rfl⟩

/-- C5 witness: after disconnecting the registered `grafana/a/b`
channel, its id resolves to nothing, and a new `getChannel` call returns
a fresh Pending channel with a different token. -/
theorem disconnect_then_fresh_witness :
    List.lookup (channelId "grafana" "a" "b")
      (stepDisconnectChannel stA 0).openMap = none :=
  (disconnect_then_fresh stA 0 chA "grafana" "a" "b"
    (by decide) (by rfl) (by rfl) (by rfl) (by rfl) (by decide)).1

/-- The state produced by `getChannel('grafana','','a/b')` — an address
whose namespace segment is empty and whose path segment contains the
separator — on a fresh disconnected service. -/
def stMalformed : SrvState :=
  ((getChannelE (initState false) "grafana" "" "a/b").toOption.map Prod.snd).getD
    (initState false)

/-- C4 counterexample: for the address `('grafana', '', 'a/b')` — empty
namespace segment, separator inside the path segment — `getChannel` does
not fail with any synchronous error: it returns `Except.ok` with a
channel that is registered under the aliased id `grafana//a/b` and is in
Pending state.  No `InvalidAddress` rejection exists in the code. -/
theorem getChannel_malformed_accepted :
    getChannelE (initState false) "grafana" "" "a/b" = .ok (0, stMalformed) ∧
    List.lookup (channelId "grafana" "" "a/b") stMalformed.openMap = some 0 ∧
    (List.lookup 0 stMalformed.heap).map Channel.currentState =
      some LiveChannelConnectionState.Pending := ⟨rfl, rfl, rfl⟩

/-- C4 amended: `getChannel` performs no validation of the namespace or
path segments.  For every namespace and path — including the empty
string and strings containing the separator `'/'` — given a recognized
scope and an id not already registered, it synchronously constructs and
registers a fresh Pending channel and returns it; no synchronous
`InvalidAddress` (or any other) failure is possible. -/
theorem getChannel_no_validation (st : SrvState) (s n p : String)
    (hscope : scopeOf s ≠ none)
    (hm : List.lookup (channelId s n p) st.openMap = none) :
    getChannelE st s n p = .ok (st.nextTok,
      { st with
        nextTok := st.nextTok + 1
        heap := aset st.nextTok (newChannel (channelId s n p) s n p) st.heap
        openMap := aset (channelId s n p) st.nextTok st.openMap
        tasks := st.tasks ++ [(st.nextTok, .resolving)] }) ∧
    (newChannel (channelId s n p) s n p).currentState = .Pending := by
  cases hsc : scopeOf s with
  | none => exact absurd hsc hscope
  | some sc =>
    constructor
    · simp only [getChannelE]
      rw [hm, hsc]
    · rfl

/-- C4 amended witness: the empty namespace and a separator-containing
path are accepted unchanged. -/
theorem getChannel_no_validation_witness :
    (newChannel (channelId "grafana" "" "a/b") "grafana" "" "a/b").currentState =
      LiveChannelConnectionState.Pending :=
  (getChannel_no_validation (initState false) "grafana" "" "a/b"
    (by decide) (by rfl)).2

/-- The state after the valid call `getChannel('ds','a','b/c')` on a
fresh disconnected service: it registers the id `ds/a/b/c`. -/
def stAlias : SrvState :=
  ((getChannelE (initState false) "ds" "a" "b/c").toOption.map Prod.snd).getD
    (initState false)

/-- C9 counterexample: `'ds/a'` is not a registered scope, yet
`getChannel('ds/a','b','c')` computes the aliased id `ds/a/b/c`, which a
previous valid call `getChannel('ds','a','b/c')` registered; the lookup
runs before the scope check, so the call returns that registered channel
(token 0) — the same instance every time, found in the open-channel map —
instead of a fresh unregistered error channel. -/
theorem invalid_scope_alias_returns_registered :
    scopeOf "ds/a" = none ∧
    getChannelE stAlias "ds/a" "b" "c" = .ok (0, stAlias) ∧
    List.lookup (channelId "ds/a" "b" "c") stAlias.openMap = some 0 := ⟨rfl, rfl, rfl⟩

/-- C9 amended: for a scope id that is not one of the three registered
scopes, provided the computed id is not already registered (segments
containing the separator can alias a registered id, in which case the
registered channel is returned), `getChannel` returns a fresh error
channel — shutdown, with the `invalid scope` error — that is never
inserted into the open-channel map; a repeated call therefore allocates
a distinct instance, so the at-most-one-channel-per-id deduplication
does not apply. -/
theorem invalid_scope_error_channel (st : SrvState) (s n p : String)
    (hscope : scopeOf s = none)
    (hm : List.lookup (channelId s n p) st.openMap = none) :
    ∃ st1, getChannelE st s n p = .ok (st.nextTok, st1) ∧
      st1.openMap = st.openMap ∧
      List.lookup st.nextTok st1.heap =
        some (getErrorChannel "invalid scope" (channelId s n p) s n p) ∧
      (getErrorChannel "invalid scope" (channelId s n p) s n p).currentState =
        .Shutdown ∧
      ∃ tok2 st2, getChannelE st1 s n p = .ok (tok2, st2) ∧ tok2 ≠ st.nextTok := by
  refine ⟨{ st with
      nextTok := st.nextTok + 1
      heap := aset st.nextTok
        (getErrorChannel "invalid scope" (channelId s n p) s n p) st.heap },
    ?_, rfl, lookup_aset_self _ _ _, rfl, st.nextTok + 1,
    { st with
      nextTok := st.nextTok + 2
      heap := aset (st.nextTok + 1)
        (getErrorChannel "invalid scope" (channelId s n p) s n p)
        (aset st.nextTok
          (getErrorChannel "invalid scope" (channelId s n p) s n p) st.heap) },
    ?_, Nat.succ_ne_self _⟩
  · simp only [getChannelE]
    rw [hm, hscope]
  · simp only [getChannelE]
    rw [hm, hscope]

/-- C9 amended witness: two `getChannel` calls with the unrecognized
scope `'nope'` return distinct error-channel instances (tokens 0 and 1)
and never touch the registry. -/
theorem invalid_scope_error_channel_witness :
    ∃ st1, getChannelE (initState false) "nope" "a" "b" = .ok (0, st1) ∧
      st1.openMap = (initState false).openMap ∧
      List.lookup 0 st1.heap =
        some (getErrorChannel "invalid scope" (channelId "nope" "a" "b") "nope" "a" "b") ∧
      (getErrorChannel "invalid scope" (channelId "nope" "a" "b") "nope" "a" "b").currentState =
        .Shutdown ∧
      ∃ tok2 st2, getChannelE st1 "nope" "a" "b" = .ok (tok2, st2) ∧ tok2 ≠ 0 :=
  invalid_scope_error_channel (initState false) "nope" "a" "b" (by decide) (by rfl)

/-- The counterexample trace for the first-connect claim: the transport
connects, disconnects again, and only then is the channel requested. -/
def evC3 : List Event :=
  [.connect, .disconnect, .getChannel "grafana" "a" "b", .resolveInit 0]

/-- C3 counterexample: a channel created while the transport is
disconnected, but after the first connect already resolved the
connection blocker, attaches its transport subscription immediately —
without any further connect event.  In the trace `evC3` the channel is
created while `connected = false` (after `connect, disconnect`), the
events after its creation contain no connect, and yet its subscription
ends up attached while the transport is still disconnected. -/
theorem subscription_attached_while_disconnected :
    (run envPub (initState false) [Event.connect, Event.disconnect,
      Event.getChannel "grafana" "a" "b"]).connected = false ∧
    (run envPub (initState false) evC3).connected = false ∧
    (List.lookup 0 (run envPub (initState false) evC3).heap).map Channel.subscription =
      some true ∧
    Event.connect ∉ [Event.getChannel "grafana" "a" "b", Event.resolveInit 0] :=
  ⟨rfl, rfl, rfl, by decide⟩

/-- C3 amended: every channel created before the first transport
connection keeps its transport subscription detached as long as no
connect event has occurred (they all wait on the single shared
connection blocker), and the connect event resumes all of them at once —
after it no continuation is left suspended on the blocker.  (A channel
created while the transport is disconnected after the first connection
is not gated: the blocker is already resolved and the subscription is
attached immediately, as the counterexample shows.) -/
theorem first_connect_gating (env : Env) (events : List Event) :
    (Event.connect ∉ events →
      ∀ tok ch, List.lookup tok (run env (initState false) events).heap = some ch →
        ch.subscription = false) ∧
    (∀ st : SrvState, ∀ q ∈ (step env st .connect).tasks, q.2.isWaiting = false) := by
  constructor
  · intro hnc tok ch hl
    exact (inv_run env events (inv_initState false)).ns
      (blocker_run_no_connect env events hnc _ rfl) tok ch hl
  · intro st
    exact stepConnect_noWaiting env st

/-- The state after requesting `grafana/a/b` and resolving its config
while the transport never connected: the channel sits on the blocker. -/
def stW3 : SrvState :=
  run envPub (initState false) [Event.getChannel "grafana" "a" "b", Event.resolveInit 0]

/-- The channel suspended on the blocker in `stW3`. -/
def chW3 : Channel :=
  (List.lookup 0 stW3.heap).getD (newChannel "" "" "" "")

/-- C3 amended witness: with no connect event the resolved channel's
subscription is still detached. -/
theorem first_connect_gating_witness : chW3.subscription = false :=
  (first_connect_gating envPub
    [Event.getChannel "grafana" "a" "b", Event.resolveInit 0]).1
    (by decide) 0 chW3 (by rfl)

/-- C6: in every reachable state, a channel's `publish` member is bound
only if its resolved config's `canPublish` predicate returned true at
initialization time, and once initialization completed (the transport
subscription is attached), `publish` is bound exactly when the resolved
config's `canPublish` predicate returned true — when the predicate is
absent or false, `publish` is absent, not a no-op. -/
theorem publish_iff_canPublish (env : Env) (c0 : Bool) (events : List Event)
    (tok : Nat) (ch : Channel)
    (hl : List.lookup tok (run env (initState c0) events).heap = some ch) :
    (ch.publish = true → ∃ cfg, ch.config = some cfg ∧ cfg.canPublish = some true) ∧
    (ch.subscription = true →
      ∃ cfg, ch.config = some cfg ∧ (ch.publish = true ↔ cfg.canPublish = some true)) :=
  (inv_run env events (inv_initState c0)).pb tok ch hl

/-- The fully initialized `grafana/a/b` channel under `envPub`. -/
def chW6 : Channel :=
  (List.lookup 0 (run envPub (initState false)
    [Event.getChannel "grafana" "a" "b", Event.resolveInit 0, Event.connect]).heap).getD
    (newChannel "" "" "" "")

/-- C6 witness: the initialized channel has its subscription attached
and `publish` bound exactly per `cfgPub.canPublish = some true`. -/
theorem publish_iff_canPublish_witness :
    ∃ cfg, chW6.config = some cfg ∧ (chW6.publish = true ↔ cfg.canPublish = some true) :=
  (publish_iff_canPublish envPub false
    [Event.getChannel "grafana" "a" "b", Event.resolveInit 0, Event.connect] 0 chW6
    (by rfl)).2 (by rfl)

/-- C7: the service's observable boolean connection state emits `true`
on every transport connect callback and `false` on every transport
disconnect callback, `getConnectionState()` exposes its current value,
and no other event — a `getChannel` call, an initialization resolution,
or a channel disconnect — changes the connection view or emits anything:
the state is published independently of any individual channel's
state. -/
theorem connectionState_follows_transport (env : Env) (st : SrvState) :
    (step env st .connect).connState = true ∧
    (step env st .connect).connLog = st.connLog ++ [true] ∧
    (step env st .disconnect).connState = false ∧
    (step env st .disconnect).connLog = st.connLog ++ [false] ∧
    getConnectionState st = st.connState ∧
    (∀ s n p, connView (step env st (.getChannel s n p)) = connView st) ∧
    (∀ tok, connView (step env st (.resolveInit tok)) = connView st) ∧
    (∀ tok, connView (step env st (.disconnectChannel tok)) = connView st) := by
  refine ⟨(connView_stepConnect env st).1, (connView_stepConnect env st).2.1, rfl, rfl, rfl,
    connView_stepGetChannel env st, ?_, ?_⟩
  · intro tok
    exact connView_of_flagsOf (flagsOf_stepResolve env st tok)
  · intro tok
    exact connView_of_flagsOf (flagsOf_stepDisconnectChannel st tok)

/-- C8: for every scope in `{ds, plugin, grafana}` and all non-empty,
separator-free namespace and path strings, parsing the formatted id
`{scope}/{namespace}/{path}` yields back exactly the original triple. -/
theorem parse_format_roundtrip (sc : LiveChannelScope) (n p : String)
    (hn : n ≠ "") (hp : p ≠ "") (hns : '/' ∉ n.data) (hps : '/' ∉ p.data) :
    parseChannelId (channelId sc.str n p) = some (sc.str, n, p) := by
  have hsplit := splitOnSlash_channelId sc n p hns hps
  have hnd : n.data.isEmpty = false := by
    cases hd : n.data with
    | nil => exact absurd (String.ext (hd.trans rfl)) hn
    | cons a l => rfl
  have hpd : p.data.isEmpty = false := by
    cases hd : p.data with
    | nil => exact absurd (String.ext (hd.trans rfl)) hp
    | cons a l => rfl
  have hscd : sc.str.data.isEmpty = false := by
    cases sc <;> rfl
  simp only [parseChannelId]
  rw [hsplit]
  show (if sc.str.data.isEmpty || n.data.isEmpty || p.data.isEmpty then none
    else some (String.mk sc.str.data, String.mk n.data, String.mk p.data)) =
    some (sc.str, n, p)
  rw [hscd, hnd, hpd]
  rfl

/-- C8 witness: `parse(format(grafana, a, b)) = (grafana, a, b)`. -/
theorem parse_format_roundtrip_witness :
    parseChannelId (channelId LiveChannelScope.Grafana.str "a" "b") =
      some ("grafana", "a", "b") :=
  parse_format_roundtrip .Grafana "a" "b" (by decide) (by decide) (by decide) (by decide)

end GrafanaLive
